import Mathlib

/-!
Verification of the hazard-detection backend (`server/app.py`).

The Python source is shallowly embedded over exact rational arithmetic:
Python floats become `ℚ`, Python ints become `ℤ`/`ℕ`, dictionaries become
structures, the global session dictionaries become an explicit `Store`
value threaded through the handlers, and HTTP error responses become an
`Except` error type.  Each definition mirrors one function of
`server/app.py` (line numbers in the doc comments refer to that file).
-/

namespace HazardDetection

/-! ## Geometric transform: `preprocess_image` (lines 150–201)

Only the coordinate geometry of the letterbox is embedded; pixel
shuffling (colour conversion, normalisation, HWC→CHW transpose) carries
no information relevant to coordinates. -/

/-- Python `int()` applied to a float: truncation toward zero. -/
def pyInt (q : ℚ) : ℤ := if q < 0 then ⌈q⌉ else ⌊q⌋

/-- The letterbox parameters returned by `preprocess_image`
(`scale, paste_x, paste_y` plus the intermediate resized dimensions). -/
structure TransformParams where
  scale : ℚ
  new_width : ℤ
  new_height : ℤ
  paste_x : ℤ
  paste_y : ℤ
deriving DecidableEq

/-- Geometry of `preprocess_image` (lines 169–182): `scale` is
`min(target_width/original_width, target_height/original_height)`, the
resized dimensions are `int(original * scale)` (Python truncation), and
the paste offsets are `(target - new) // 2` (Python floor division,
`Int.fdiv`). -/
def preprocess_image (original_width original_height target_width target_height : ℕ) :
    TransformParams :=
  let scale : ℚ := min ((target_width : ℚ) / (original_width : ℚ))
    ((target_height : ℚ) / (original_height : ℚ))
  let new_width := pyInt ((original_width : ℚ) * scale)
  let new_height := pyInt ((original_height : ℚ) * scale)
  let paste_x := Int.fdiv ((target_width : ℤ) - new_width) 2
  let paste_y := Int.fdiv ((target_height : ℤ) - new_height) 2
  ⟨scale, new_width, new_height, paste_x, paste_y⟩

/-- Coordinate form of the forward letterbox mapping: pasting the image
resized by `scale` at offset `paste` (lines 175–185) carries an original
coordinate `x` to `x * scale + paste` in model space. -/
def letterboxForward (scale paste x : ℚ) : ℚ := x * scale + paste

/-- Inverse letterbox mapping used by `postprocess_predictions_letterbox`
(lines 340–343): `(x - paste) / scale`. -/
def letterboxInverse (scale paste x : ℚ) : ℚ := (x - paste) / scale

/-- Clamping to image bounds, `max(0, min(v, bound))` (lines 346–349). -/
def clamp (v bound : ℚ) : ℚ := max 0 (min v bound)

/-- Rounding to nearest, written from the spec's words ("`new_w =
round(W*scale)`", rounding to nearest) for comparison with the code's
truncation; half-way values round up. -/
def specRound (q : ℚ) : ℤ := ⌊q + 1 / 2⌋

theorem preprocess_scale_def (W H S : ℕ) :
    (preprocess_image W H S S).scale = min ((S : ℚ) / W) ((S : ℚ) / H) := rfl

theorem preprocess_scale_pos (W H S : ℕ) (hW : 0 < W) (hH : 0 < H) (hS : 0 < S) :
    0 < (preprocess_image W H S S).scale := by
  rw [preprocess_scale_def]
  exact lt_min (div_pos (by exact_mod_cast hS) (by exact_mod_cast hW))
    (div_pos (by exact_mod_cast hS) (by exact_mod_cast hH))

theorem pyInt_of_nonneg {q : ℚ} (h : 0 ≤ q) : pyInt q = ⌊q⌋ := by
  rw [pyInt, if_neg (not_lt.mpr h)]

theorem new_width_le (W H S : ℕ) (hW : 0 < W) (hH : 0 < H) (hS : 0 < S) :
    (preprocess_image W H S S).new_width ≤ S := by
  have hsc := preprocess_scale_pos W H S hW hH hS
  show pyInt ((W : ℚ) * (preprocess_image W H S S).scale) ≤ S
  rw [pyInt_of_nonneg (by positivity)]
  have h1 : (W : ℚ) * (preprocess_image W H S S).scale ≤ S := by
    rw [preprocess_scale_def]
    calc (W : ℚ) * min ((S : ℚ) / W) ((S : ℚ) / H)
        ≤ (W : ℚ) * ((S : ℚ) / W) := by
          exact mul_le_mul_of_nonneg_left (min_le_left _ _) (by positivity)
      _ = S := by
          rw [mul_div_cancel₀]
          exact_mod_cast hW.ne'
  calc ⌊(W : ℚ) * (preprocess_image W H S S).scale⌋ ≤ ⌊(S : ℚ)⌋ := Int.floor_le_floor h1
    _ = S := by exact_mod_cast Int.floor_natCast S

theorem new_height_le (W H S : ℕ) (hW : 0 < W) (hH : 0 < H) (hS : 0 < S) :
    (preprocess_image W H S S).new_height ≤ S := by
  have hsc := preprocess_scale_pos W H S hW hH hS
  show pyInt ((H : ℚ) * (preprocess_image W H S S).scale) ≤ S
  rw [pyInt_of_nonneg (by positivity)]
  have h1 : (H : ℚ) * (preprocess_image W H S S).scale ≤ S := by
    rw [preprocess_scale_def]
    calc (H : ℚ) * min ((S : ℚ) / W) ((S : ℚ) / H)
        ≤ (H : ℚ) * ((S : ℚ) / H) := by
          exact mul_le_mul_of_nonneg_left (min_le_right _ _) (by positivity)
      _ = S := by
          rw [mul_div_cancel₀]
          exact_mod_cast hH.ne'
  calc ⌊(H : ℚ) * (preprocess_image W H S S).scale⌋ ≤ ⌊(S : ℚ)⌋ := Int.floor_le_floor h1
    _ = S := by exact_mod_cast Int.floor_natCast S

/-- C4 counterexample: the claim says `new_h = round(H*scale)` (rounding to
nearest), but `preprocess_image` truncates with Python `int()`.  At a 3×2
image with target 640, `H*scale = 1280/3 ≈ 426.67`: the code computes 426
while rounding to nearest gives 427. -/
theorem C4_counterexample :
    (preprocess_image 3 2 640 640).new_height = 426 ∧
    specRound ((2 : ℚ) * (preprocess_image 3 2 640 640).scale) = 427 ∧
    (426 : ℤ) ≠ 427 := by
  refine ⟨?_, ?_, by norm_num⟩
  · show pyInt ((2 : ℚ) * min ((640 : ℚ) / 3) ((640 : ℚ) / 2)) = 426
    rw [pyInt]
    norm_num
  · rw [preprocess_scale_def, specRound]
    norm_num

/-- C4 (amended): for every source image with positive dimensions `(W,H)` and
positive target square size `S`, the forward letterbox computes
`scale = min(S/W, S/H) > 0`, `new_w = ⌊W*scale⌋` and `new_h = ⌊H*scale⌋`
(truncation, not rounding to nearest), both at most `S`, and centers the
resized image with `pad = (S - new) // 2` (floor division), which is
nonnegative. -/
theorem C4_letterbox_forward (W H S : ℕ) (hW : 0 < W) (hH : 0 < H) (hS : 0 < S) :
    (preprocess_image W H S S).scale = min ((S : ℚ) / W) ((S : ℚ) / H) ∧
    0 < (preprocess_image W H S S).scale ∧
    (preprocess_image W H S S).new_width = ⌊(W : ℚ) * (preprocess_image W H S S).scale⌋ ∧
    (preprocess_image W H S S).new_height = ⌊(H : ℚ) * (preprocess_image W H S S).scale⌋ ∧
    (preprocess_image W H S S).new_width ≤ S ∧
    (preprocess_image W H S S).new_height ≤ S ∧
    (preprocess_image W H S S).paste_x =
      Int.fdiv ((S : ℤ) - (preprocess_image W H S S).new_width) 2 ∧
    (preprocess_image W H S S).paste_y =
      Int.fdiv ((S : ℤ) - (preprocess_image W H S S).new_height) 2 ∧
    0 ≤ (preprocess_image W H S S).paste_x ∧
    0 ≤ (preprocess_image W H S S).paste_y := by
  have hsc := preprocess_scale_pos W H S hW hH hS
  refine ⟨rfl, hsc, ?_, ?_, new_width_le W H S hW hH hS, new_height_le W H S hW hH hS,
    rfl, rfl, ?_, ?_⟩
  · exact pyInt_of_nonneg (by positivity)
  · exact pyInt_of_nonneg (by positivity)
  · show 0 ≤ Int.fdiv ((S : ℤ) - (preprocess_image W H S S).new_width) 2
    exact Int.fdiv_nonneg (by have := new_width_le W H S hW hH hS; omega) (by norm_num)
  · show 0 ≤ Int.fdiv ((S : ℤ) - (preprocess_image W H S S).new_height) 2
    exact Int.fdiv_nonneg (by have := new_height_le W H S hW hH hS; omega) (by norm_num)

/-- Witness for C4 (amended) at a 3×2 image with target 640. -/
theorem C4_letterbox_forward_witness :
    (preprocess_image 3 2 640 640).new_height =
      ⌊(2 : ℚ) * (preprocess_image 3 2 640 640).scale⌋ ∧
    0 ≤ (preprocess_image 3 2 640 640).paste_y := by
  obtain ⟨h1, h2, h3, h4, h5, h6, h7, h8, h9, h10⟩ :=
    C4_letterbox_forward 3 2 640 (by norm_num) (by norm_num) (by norm_num)
  exact ⟨h4, h10⟩

/-- C5: for every image with positive dimensions and every coordinate inside
the original bounds, the inverse letterbox mapping `(x - paste) / scale`
(applied by `postprocess_predictions_letterbox` before any clamping) exactly
undoes the forward mapping `x * scale + paste` over exact arithmetic, and the
subsequent clamp to `[0, original_dimension]` leaves the recovered
coordinate unchanged. -/
theorem C5_roundtrip (W H S : ℕ) (hW : 0 < W) (hH : 0 < H) (hS : 0 < S) (x y : ℚ)
    (hx0 : 0 ≤ x) (hxW : x ≤ W) (hy0 : 0 ≤ y) (hyH : y ≤ H) :
    (∀ paste : ℚ, letterboxInverse (preprocess_image W H S S).scale paste
        (letterboxForward (preprocess_image W H S S).scale paste x) = x) ∧
    clamp (letterboxInverse (preprocess_image W H S S).scale
        ((preprocess_image W H S S).paste_x : ℚ)
        (letterboxForward (preprocess_image W H S S).scale
          ((preprocess_image W H S S).paste_x : ℚ) x)) W = x ∧
    clamp (letterboxInverse (preprocess_image W H S S).scale
        ((preprocess_image W H S S).paste_y : ℚ)
        (letterboxForward (preprocess_image W H S S).scale
          ((preprocess_image W H S S).paste_y : ℚ) y)) H = y := by
  have hsc := preprocess_scale_pos W H S hW hH hS
  have hround : ∀ paste z : ℚ, letterboxInverse (preprocess_image W H S S).scale paste
      (letterboxForward (preprocess_image W H S S).scale paste z) = z := by
    intro paste z
    rw [letterboxForward, letterboxInverse]
    field_simp
  refine ⟨fun paste => hround paste x, ?_, ?_⟩
  · rw [hround, clamp, min_eq_left hxW, max_eq_right hx0]
  · rw [hround, clamp, min_eq_left hyH, max_eq_right hy0]

/-- Witness for C5 on a 4×3 image with target 640 at coordinate 2. -/
theorem C5_roundtrip_witness :
    clamp (letterboxInverse (preprocess_image 4 3 640 640).scale
        ((preprocess_image 4 3 640 640).paste_x : ℚ)
        (letterboxForward (preprocess_image 4 3 640 640).scale
          ((preprocess_image 4 3 640 640).paste_x : ℚ) 2)) 4 = 2 := by
  obtain ⟨h1, h2, h3⟩ := C5_roundtrip 4 3 640 (by norm_num) (by norm_num) (by norm_num)
    2 1 (by norm_num) (by norm_num) (by norm_num) (by norm_num)
  exact_mod_cast h2

/-! ## IoU: `calculate_iou` (lines 278–303) -/

/-- A bounding box `[x1, y1, x2, y2]`. -/
structure Box where
  x1 : ℚ
  y1 : ℚ
  x2 : ℚ
  y2 : ℚ
deriving DecidableEq

/-- The Detection box invariant: `x1 < x2` and `y1 < y2`. -/
def Box.wellFormed (b : Box) : Prop := b.x1 < b.x2 ∧ b.y1 < b.y2

/-- Intersection over union of two boxes, `calculate_iou` (lines 278–303):
returns `0.0` when the intersection rectangle is empty
(`x2_i <= x1_i or y2_i <= y1_i`), otherwise
`intersection / union` guarded by `union > 0`. -/
def calculate_iou (box1 box2 : Box) : ℚ :=
  let x1_i := max box1.x1 box2.x1
  let y1_i := max box1.y1 box2.y1
  let x2_i := min box1.x2 box2.x2
  let y2_i := min box1.y2 box2.y2
  if x2_i ≤ x1_i ∨ y2_i ≤ y1_i then 0
  else
    let intersection := (x2_i - x1_i) * (y2_i - y1_i)
    let area1 := (box1.x2 - box1.x1) * (box1.y2 - box1.y1)
    let area2 := (box2.x2 - box2.x1) * (box2.y2 - box2.y1)
    let u := area1 + area2 - intersection
    if u > 0 then intersection / u else 0

theorem calculate_iou_comm (a b : Box) : calculate_iou a b = calculate_iou b a := by
  simp only [calculate_iou]
  rw [max_comm b.x1 a.x1, max_comm b.y1 a.y1, min_comm b.x2 a.x2, min_comm b.y2 a.y2,
    add_comm ((b.x2 - b.x1) * (b.y2 - b.y1)) ((a.x2 - a.x1) * (a.y2 - a.y1))]

theorem calculate_iou_self (a : Box) (ha : a.wellFormed) : calculate_iou a a = 1 := by
  obtain ⟨hx, hy⟩ := ha
  have harea : 0 < (a.x2 - a.x1) * (a.y2 - a.y1) := by
    apply mul_pos <;> linarith
  simp only [calculate_iou, max_self, min_self]
  rw [if_neg (by push_neg; constructor <;> linarith)]
  rw [if_pos (by linarith)]
  field_simp

theorem calculate_iou_nonneg (a b : Box) : 0 ≤ calculate_iou a b := by
  simp only [calculate_iou]
  split_ifs with h1 h2
  · exact le_refl 0
  · push_neg at h1
    obtain ⟨hx, hy⟩ := h1
    have hint : 0 < (min a.x2 b.x2 - max a.x1 b.x1) * (min a.y2 b.y2 - max a.y1 b.y1) := by
      apply mul_pos <;> linarith
    positivity
  · exact le_refl 0

theorem calculate_iou_disjoint (a b : Box)
    (h : min a.x2 b.x2 ≤ max a.x1 b.x1 ∨ min a.y2 b.y2 ≤ max a.y1 b.y1) :
    calculate_iou a b = 0 := by
  simp only [calculate_iou]
  rw [if_pos h]

/-- C8: for all boxes satisfying the Detection box invariant, IoU is
symmetric, `iou(a,a) = 1`, IoU of boxes with empty intersection is `0`
(intersection area taken as zero), and IoU is never negative. -/
theorem C8_iou_properties (a b : Box) (ha : a.wellFormed) (hb : b.wellFormed) :
    calculate_iou a b = calculate_iou b a ∧
    calculate_iou a a = 1 ∧
    (min a.x2 b.x2 ≤ max a.x1 b.x1 ∨ min a.y2 b.y2 ≤ max a.y1 b.y1 →
      calculate_iou a b = 0) ∧
    0 ≤ calculate_iou a b :=
  ⟨calculate_iou_comm a b, calculate_iou_self a ha, calculate_iou_disjoint a b,
    calculate_iou_nonneg a b⟩

/-- Witness for C8 on the concrete boxes `[0,0,2,1]` and `[0,0,1,1]`. -/
theorem C8_iou_properties_witness :
    calculate_iou ⟨0, 0, 2, 1⟩ ⟨0, 0, 1, 1⟩ = calculate_iou ⟨0, 0, 1, 1⟩ ⟨0, 0, 2, 1⟩ ∧
    calculate_iou ⟨0, 0, 2, 1⟩ ⟨0, 0, 2, 1⟩ = 1 := by
  obtain ⟨h1, h2, h3, h4⟩ := C8_iou_properties ⟨0, 0, 2, 1⟩ ⟨0, 0, 1, 1⟩
    (by constructor <;> norm_num) (by constructor <;> norm_num)
  exact ⟨h1, h2⟩

/-! ## Non-maximum suppression: `apply_nms` (lines 259–276) -/

/-- A candidate detection as produced by the decoder (the dict of lines
355–360). -/
structure Detection where
  bbox : Box
  confidence : ℚ
  class_id : ℕ
  class_name : String
deriving DecidableEq

/-- The comparison used by `sorted(detections, key=confidence, reverse=True)`
(line 265): `a` may precede `b` when `b.confidence ≤ a.confidence`. -/
def detLe (a b : Detection) : Bool := b.confidence ≤ a.confidence

/-- Python's `sorted(..., key=lambda x: x.confidence, reverse=True)`
(line 265): a stable descending sort, embedded as a stable merge sort. -/
def sortByConfDesc (l : List Detection) : List Detection := l.mergeSort detLe

theorem detLe_trans : ∀ a b c : Detection, detLe a b = true → detLe b c = true →
    detLe a c = true := by
  intro a b c hab hbc
  simp only [detLe, decide_eq_true_eq] at *
  exact le_trans hbc hab

theorem detLe_total : ∀ a b : Detection, (detLe a b || detLe b a) = true := by
  intro a b
  simp only [detLe, Bool.or_eq_true, decide_eq_true_eq]
  exact le_total b.confidence a.confidence

/-- The greedy loop of `apply_nms` (lines 267–274): pop the
highest-confidence remaining candidate, keep it, and retain only the
remaining candidates with `calculate_iou(best, det) < iou_threshold`. -/
def nmsLoop (iou_threshold : ℚ) : List Detection → List Detection
  | [] => []
  | best :: rest =>
    best :: nmsLoop iou_threshold
      (rest.filter fun det => calculate_iou best.bbox det.bbox < iou_threshold)
termination_by l => l.length
decreasing_by
  simp only [List.length_cons]
  exact Nat.lt_succ_of_le (List.length_filter_le _ _)

/-- `apply_nms` (lines 259–276): sort by confidence descending, then run the
greedy suppression loop.  The early return for an empty input list is
subsumed by `nmsLoop []` = `[]`. -/
def apply_nms (detections : List Detection) (iou_threshold : ℚ) : List Detection :=
  nmsLoop iou_threshold (sortByConfDesc detections)

theorem nmsLoop_sublist (thr : ℚ) (l : List Detection) : (nmsLoop thr l).Sublist l := by
  induction l using nmsLoop.induct thr with
  | case1 => simp [nmsLoop]
  | case2 best rest ih =>
    rw [nmsLoop]
    exact List.Sublist.cons₂ best (ih.trans (List.filter_sublist rest))

theorem nmsLoop_pairwise (thr : ℚ) (l : List Detection) :
    (nmsLoop thr l).Pairwise (fun a b => calculate_iou a.bbox b.bbox < thr) := by
  induction l using nmsLoop.induct thr with
  | case1 => simp [nmsLoop]
  | case2 best rest ih =>
    rw [nmsLoop]
    refine List.Pairwise.cons ?_ ih
    intro b hb
    have hmem := (nmsLoop_sublist thr _).subset hb
    have := (List.mem_filter.mp hmem).2
    exact of_decide_eq_true this

theorem nmsLoop_of_pairwise (thr : ℚ) (l : List Detection)
    (h : l.Pairwise (fun a b => calculate_iou a.bbox b.bbox < thr)) :
    nmsLoop thr l = l := by
  induction l with
  | nil => simp [nmsLoop]
  | cons best rest ih =>
    rw [nmsLoop]
    obtain ⟨hhead, htail⟩ := List.pairwise_cons.mp h
    have hfil : rest.filter (fun det => decide (calculate_iou best.bbox det.bbox < thr)) = rest :=
      List.filter_eq_self.mpr (fun a ha => decide_eq_true (hhead a ha))
    rw [hfil, ih htail]

theorem sortByConfDesc_sorted (l : List Detection) :
    (sortByConfDesc l).Pairwise (fun a b => detLe a b = true) :=
  List.sorted_mergeSort detLe_trans detLe_total l

theorem sortByConfDesc_stable (l : List Detection) (q : ℚ) :
    (sortByConfDesc l).filter (fun d => d.confidence = q) =
      l.filter (fun d => d.confidence = q) := by
  have hpair : (l.filter (fun d => decide (d.confidence = q))).Pairwise
      (fun a b => detLe a b = true) := by
    apply List.pairwise_of_forall_mem_list
    intro a ha b hb
    have ha' := of_decide_eq_true (List.mem_filter.mp ha).2
    have hb' := of_decide_eq_true (List.mem_filter.mp hb).2
    simp only [detLe, decide_eq_true_eq]
    rw [ha', hb']
  have h1 : (l.filter (fun d => decide (d.confidence = q))).Sublist (sortByConfDesc l) :=
    List.sublist_mergeSort detLe_trans detLe_total hpair (List.filter_sublist l)
  have h2 : ((sortByConfDesc l).filter (fun d => decide (d.confidence = q))).Perm
      (l.filter (fun d => decide (d.confidence = q))) :=
    (List.mergeSort_perm l detLe).filter _
  have h3 : (l.filter (fun d => decide (d.confidence = q))).Sublist
      ((sortByConfDesc l).filter (fun d => decide (d.confidence = q))) := by
    have h4 := h1.filter (fun d => decide (d.confidence = q))
    rw [List.filter_filter] at h4
    simp only [Bool.and_self] at h4
    exact h4
  exact (h3.eq_of_length (h2.length_eq).symm).symm

/-- C7: NMS is deterministic.  The sort is stable (elements of equal
confidence keep their original relative order) and descending; the NMS
output is a deterministic selection from the sorted list, is itself in
confidence-descending order, contains no two boxes with IoU at or above
the threshold in either orientation, and applying NMS to its own output
returns it unchanged. -/
theorem C7_nms_deterministic (l : List Detection) (thr : ℚ) :
    (∀ q : ℚ, (sortByConfDesc l).filter (fun d => d.confidence = q) =
      l.filter (fun d => d.confidence = q)) ∧
    (sortByConfDesc l).Pairwise (fun a b => detLe a b = true) ∧
    (apply_nms l thr).Sublist (sortByConfDesc l) ∧
    (apply_nms l thr).Pairwise (fun a b => b.confidence ≤ a.confidence) ∧
    (apply_nms l thr).Pairwise (fun a b =>
      calculate_iou a.bbox b.bbox < thr ∧ calculate_iou b.bbox a.bbox < thr) ∧
    apply_nms (apply_nms l thr) thr = apply_nms l thr := by
  have hsub : (apply_nms l thr).Sublist (sortByConfDesc l) := nmsLoop_sublist thr _
  have hsorted : (apply_nms l thr).Pairwise (fun a b => detLe a b = true) :=
    List.Pairwise.sublist hsub (sortByConfDesc_sorted l)
  have hpair : (apply_nms l thr).Pairwise (fun a b =>
      calculate_iou a.bbox b.bbox < thr ∧ calculate_iou b.bbox a.bbox < thr) := by
    have h := nmsLoop_pairwise thr (sortByConfDesc l)
    refine h.imp_of_mem ?_
    intro a b _ _ hab
    exact ⟨hab, by rwa [calculate_iou_comm]⟩
  refine ⟨sortByConfDesc_stable l, sortByConfDesc_sorted l, hsub, ?_, hpair, ?_⟩
  · refine hsorted.imp ?_
    intro a b hab
    exact of_decide_eq_true hab
  · rw [apply_nms, sortByConfDesc, List.mergeSort_of_sorted hsorted]
    exact nmsLoop_of_pairwise thr _ (hpair.imp (fun h => h.1))

/-- Concrete boxes for the C3 counterexample: `cexBoxA` has area 2,
`cexBoxB` area 1, their intersection has area 1, so their IoU is exactly
`1/2`. -/
def cexBoxA : Box := ⟨0, 0, 2, 1⟩

def cexBoxB : Box := ⟨0, 0, 1, 1⟩

def cexDetA : Detection := ⟨cexBoxA, 9/10, 0, "crack"⟩

def cexDetB : Detection := ⟨cexBoxB, 8/10, 0, "crack"⟩

theorem cex_iou : calculate_iou cexBoxA cexBoxB = 1 / 2 := by
  simp only [calculate_iou, cexBoxA, cexBoxB]
  norm_num

/-- C3 counterexample: the claim says a candidate whose IoU with the
selected box equals the threshold exactly is retained, but `apply_nms`
keeps only candidates with IoU strictly below the threshold (line 274).
With threshold `1/2`, the lower-confidence box whose IoU with the selected
box is exactly `1/2` is discarded. -/
theorem C3_counterexample :
    calculate_iou cexBoxA cexBoxB = 1 / 2 ∧
    apply_nms [cexDetA, cexDetB] (1 / 2) = [cexDetA] := by
  refine ⟨cex_iou, ?_⟩
  rw [apply_nms, sortByConfDesc, List.mergeSort_of_sorted (by
    refine List.Pairwise.cons ?_ (List.pairwise_singleton _ _)
    intro b hb
    rw [List.mem_singleton] at hb
    subst hb
    simp only [detLe, cexDetA, cexDetB, decide_eq_true_eq]
    norm_num)]
  rw [nmsLoop]
  have hfil : List.filter
      (fun det => decide (calculate_iou cexDetA.bbox det.bbox < 1 / 2)) [cexDetB] = [] := by
    simp only [List.filter_cons, List.filter_nil]
    rw [show cexDetA.bbox = cexBoxA from rfl, show cexDetB.bbox = cexBoxB from rfl, cex_iou]
    norm_num
  rw [hfil, nmsLoop]

/-- C3 (amended): after the highest-confidence remaining candidate is moved
to the output, a remaining candidate is retained if and only if its IoU
with the selected box is strictly below `iou_threshold`; equivalently it is
discarded iff the IoU is at or above the threshold, and in particular a
candidate whose IoU equals the threshold exactly is discarded. -/
theorem C3_nms_discard (thr : ℚ) (best : Detection) (rest : List Detection) :
    nmsLoop thr (best :: rest) =
      best :: nmsLoop thr (rest.filter fun det => calculate_iou best.bbox det.bbox < thr) ∧
    (∀ det ∈ rest, (det ∈ rest.filter fun det => calculate_iou best.bbox det.bbox < thr) ↔
      calculate_iou best.bbox det.bbox < thr) ∧
    (∀ det ∈ rest, calculate_iou best.bbox det.bbox = thr →
      det ∉ rest.filter fun det => calculate_iou best.bbox det.bbox < thr) := by
  refine ⟨by rw [nmsLoop], ?_, ?_⟩
  · intro det hdet
    simp only [List.mem_filter, decide_eq_true_eq]
    exact ⟨fun h => h.2, fun h => ⟨hdet, h⟩⟩
  · intro det hdet heq hmem
    have := (List.mem_filter.mp hmem).2
    rw [decide_eq_true_eq] at this
    exact absurd this (by rw [heq]; exact lt_irrefl thr)

/-- Witness for C3 (amended): the equal-IoU candidate is discarded at the
concrete input of the counterexample. -/
theorem C3_nms_discard_witness :
    cexDetB ∉ List.filter
      (fun det => decide (calculate_iou cexDetA.bbox det.bbox < 1 / 2)) [cexDetB] := by
  obtain ⟨h1, h2, h3⟩ := C3_nms_discard (1 / 2) cexDetA [cexDetB]
  refine h3 _ (List.mem_singleton_self _) ?_
  rw [show cexDetA.bbox = cexBoxA from rfl, show cexDetB.bbox = cexBoxB from rfl]
  exact cex_iou

/-! ## Detection decoder: `postprocess_predictions_letterbox` (lines 305–365) -/

/-- One raw prediction row `[cx, cy, w, h, objectness, class_scores...]`
(lines 314–325). -/
structure PredRow where
  cx : ℚ
  cy : ℚ
  w : ℚ
  h : ℚ
  objectness : ℚ
  class_scores : List ℚ
deriving DecidableEq

/-- Maximum of a list of class scores (`np.max`); `0` for the empty list,
which never arises for real prediction rows. -/
def listMax : List ℚ → ℚ
  | [] => 0
  | [x] => x
  | x :: y :: xs => max x (listMax (y :: xs))

/-- Index of the first occurrence of the maximum (`np.argmax`, line 324);
`0` for the empty list, on which the real `np.argmax` would raise. -/
def argmax : List ℚ → ℕ
  | [] => 0
  | [_] => 0
  | x :: y :: xs => if x < listMax (y :: xs) then argmax (y :: xs) + 1 else 0

theorem getD_argmax : ∀ (x : ℚ) (xs : List ℚ),
    (x :: xs).getD (argmax (x :: xs)) 0 = listMax (x :: xs) := by
  intro x xs
  induction xs generalizing x with
  | nil => rw [argmax, listMax]; rfl
  | cons y ys ih =>
    rw [argmax, listMax]
    split_ifs with hlt
    · rw [max_eq_right hlt.le]
      exact ih y
    · rw [max_eq_left (not_lt.mp hlt)]
      rfl

/-- The fixed class table (line 71). -/
def class_names : List String := ["crack", "knocked", "pothole", "surface_damage"]

/-- Label lookup of line 359: the table entry when `class_id` is in range,
otherwise the string `unknown_<id>`. -/
def className (class_id : ℕ) : String :=
  if class_id < class_names.length then class_names.getD class_id ""
  else "unknown_" ++ toString class_id

/-- The box a row decodes to (lines 333–349): center-to-corner conversion in
model-input space, inverse letterbox adjustment, then clamping to the
original image bounds. -/
def decodedBox (original_width original_height scale paste_x paste_y : ℚ)
    (pred : PredRow) : Box :=
  let x1_input := pred.cx - pred.w / 2
  let y1_input := pred.cy - pred.h / 2
  let x2_input := pred.cx + pred.w / 2
  let y2_input := pred.cy + pred.h / 2
  let x1_adjusted := (x1_input - paste_x) / scale
  let y1_adjusted := (y1_input - paste_y) / scale
  let x2_adjusted := (x2_input - paste_x) / scale
  let y2_adjusted := (y2_input - paste_y) / scale
  ⟨clamp x1_adjusted original_width, clamp y1_adjusted original_height,
    clamp x2_adjusted original_width, clamp y2_adjusted original_height⟩

/-- The per-row body of the decoding loop (lines 314–360): `none` models
`continue` (the row is silently dropped), `some` the appended candidate. -/
def decodeRow (original_width original_height scale paste_x paste_y conf_threshold : ℚ)
    (pred : PredRow) : Option Detection :=
  if pred.objectness < conf_threshold then none
  else
    let class_id := argmax pred.class_scores
    let class_confidence := pred.class_scores.getD class_id 0
    let final_confidence := pred.objectness * class_confidence
    if final_confidence < conf_threshold then none
    else
      let b := decodedBox original_width original_height scale paste_x paste_y pred
      if b.x2 ≤ b.x1 ∨ b.y2 ≤ b.y1 then none
      else some ⟨b, final_confidence, class_id, className class_id⟩

/-- C6: a raw prediction row is emitted as a candidate if and only if its
objectness is at least `conf_threshold`, `objectness * max(class_scores)`
is at least `conf_threshold`, and its decoded (converted, inverse-mapped,
clamped) box satisfies `x1 < x2` and `y1 < y2`; rows failing any test are
silently dropped (`none`), never an error.  An emitted candidate carries
`class_id = argmax(class_scores)`,
`confidence = objectness * class_scores[argmax]`
(equal to `objectness * max(class_scores)`), and a `class_name` from the
fixed class table, with ids outside the table mapped to `unknown_<id>`. -/
theorem C6_decoder (ow oh scale px py thr : ℚ) (pred : PredRow)
    (hne : pred.class_scores ≠ []) :
    ((decodeRow ow oh scale px py thr pred).isSome ↔
      (thr ≤ pred.objectness ∧ thr ≤ pred.objectness * listMax pred.class_scores ∧
        (decodedBox ow oh scale px py pred).x1 < (decodedBox ow oh scale px py pred).x2 ∧
        (decodedBox ow oh scale px py pred).y1 < (decodedBox ow oh scale px py pred).y2)) ∧
    (∀ d, decodeRow ow oh scale px py thr pred = some d →
      d.class_id = argmax pred.class_scores ∧
      d.confidence = pred.objectness * pred.class_scores.getD (argmax pred.class_scores) 0 ∧
      d.confidence = pred.objectness * listMax pred.class_scores ∧
      d.class_name = className (argmax pred.class_scores) ∧
      d.bbox = decodedBox ow oh scale px py pred) ∧
    (∀ i : ℕ, class_names.length ≤ i → className i = "unknown_" ++ toString i) ∧
    (∀ i : ℕ, i < class_names.length → className i = class_names.getD i "") := by
  obtain ⟨x, xs, hx⟩ : ∃ x xs, pred.class_scores = x :: xs := by
    cases hcs : pred.class_scores with
    | nil => exact absurd hcs hne
    | cons x xs => exact ⟨x, xs, rfl⟩
  have hgetd : pred.class_scores.getD (argmax pred.class_scores) 0 =
      listMax pred.class_scores := by
    rw [hx]; exact getD_argmax x xs
  refine ⟨?_, ?_, ?_, ?_⟩
  · simp only [decodeRow]
    split_ifs with h1 h2 h3
    · simp only [Option.isSome_none, Bool.false_eq_true, false_iff]
      intro hc
      exact absurd hc.1 (not_le.mpr h1)
    · simp only [Option.isSome_none, Bool.false_eq_true, false_iff]
      rw [hgetd] at h2
      intro hc
      exact absurd hc.2.1 (not_le.mpr h2)
    · simp only [Option.isSome_none, Bool.false_eq_true, false_iff]
      intro hc
      rcases h3 with h3 | h3
      · exact absurd hc.2.2.1 (not_lt.mpr h3)
      · exact absurd hc.2.2.2 (not_lt.mpr h3)
    · simp only [Option.isSome_some, true_iff]
      push_neg at h1 h2 h3
      rw [hgetd] at h2
      exact ⟨h1, h2, h3.1, h3.2⟩
  · intro d hd
    simp only [decodeRow] at hd
    split_ifs at hd
    rw [Option.some_inj] at hd
    subst hd
    exact ⟨rfl, by rw [hgetd], by rw [hgetd], rfl, rfl⟩
  · intro i hi
    rw [className, if_neg (not_lt.mpr hi)]
  · intro i hi
    rw [className, if_pos hi]

/-- Witness for C6 on a concrete emitted row. -/
theorem C6_decoder_witness :
    (decodeRow 640 640 1 0 0 (1/2) ⟨100, 100, 40, 40, 9/10, [1]⟩).isSome = true := by
  obtain ⟨hiff, hprops, hunk, hknown⟩ :=
    C6_decoder 640 640 1 0 0 (1/2) ⟨100, 100, 40, 40, 9/10, [1]⟩ (by simp)
  apply hiff.mpr
  refine ⟨by norm_num, ?_, ?_, ?_⟩
  · rw [show listMax [1] = 1 from rfl]
    norm_num
  · simp only [decodedBox, clamp]
    norm_num
  · simp only [decodedBox, clamp]
    norm_num

/-- `postprocess_predictions_letterbox` (lines 305–365): decode every row,
silently dropping rejected ones, then apply NMS.  `input_width` and
`input_height` are accepted but unused, exactly as in the source. -/
def postprocess_predictions_letterbox (predictions : List PredRow)
    (original_width original_height input_width input_height scale paste_x paste_y
      conf_threshold iou_threshold : ℚ) : List Detection :=
  apply_nms (predictions.filterMap
    (decodeRow original_width original_height scale paste_x paste_y conf_threshold))
    iou_threshold


/-! ## Sessions, tracking and reports (lines 78–85, 367–410, 460–671) -/

/-- Detection tracking settings (lines 83–85). -/
def TRACKING_DISTANCE_THRESHOLD : ℚ := 50

def TRACKING_TIME_THRESHOLD : ℚ := 2

def MIN_CONFIDENCE_FOR_REPORT : ℚ := 0.6

/-- Squared Euclidean distance between box centers.  `calculate_distance`
(lines 367–371) returns the square root of this quantity; since
`sqrt s < t ↔ s < t^2` for `0 ≤ s` and `0 < t`, the tracking test
`distance < TRACKING_DISTANCE_THRESHOLD` is embedded as
`centerDistSq < TRACKING_DISTANCE_THRESHOLD ^ 2`. -/
def centerDistSq (box1 box2 : Box) : ℚ :=
  let cx1 := (box1.x1 + box1.x2) / 2
  let cy1 := (box1.y1 + box1.y2) / 2
  let cx2 := (box2.x1 + box2.x2) / 2
  let cy2 := (box2.y1 + box2.y2) / 2
  (cx1 - cx2) ^ 2 + (cy1 - cy2) ^ 2

/-- Report lifecycle states (line 398). -/
inductive ReportStatus
  | pending
  | confirmed
  | dismissed
deriving DecidableEq

/-- A detection dict as handled by the session endpoint (lines 596–607 plus
the tracking fields of lines 623–636).  Report ids are modelled as natural
numbers standing for the UUID strings; the derived fields `center_x`,
`center_y`, `width`, `height`, `area` are recomputable from `bbox` and
carry no extra information. -/
structure SessionDetection where
  bbox : Box
  confidence : ℚ
  class_id : ℕ
  timestamp : ℚ
  is_new : Bool
  report_id : Option ℕ
deriving DecidableEq

/-- A report (lines 390–410).  The base64 frame image, thumbnail, location
and frame-info fields carry no state-machine content and are omitted. -/
structure Report where
  report_id : ℕ
  session_id : ℕ
  detection : SessionDetection
  status : ReportStatus
deriving DecidableEq

/-- `create_report` (lines 390–410): a fresh report in state `pending`.
`uuid.uuid4()` is modelled by the caller passing a fresh id. -/
def create_report (detection : SessionDetection) (session_id report_id : ℕ) : Report :=
  { report_id := report_id, session_id := session_id, detection := detection,
    status := ReportStatus.pending }

/-- A session record (lines 464–470); `ended` models the presence of the
`end_time` key set by `end_session`. -/
structure Session where
  reports : List Report
  detection_count : ℕ
  unique_hazards : ℕ
  ended : Bool
deriving DecidableEq

/-- The two module-level dictionaries (lines 79–80): `sessions` and
`active_detections`, as association lists keyed by session id.
`active_detections` is a `defaultdict(list)`: a missing key reads as `[]`. -/
structure Store where
  sessions : List (ℕ × Session)
  active_detections : List (ℕ × List SessionDetection)
deriving DecidableEq

/-- Replace the value at a key, or append the binding (dict assignment). -/
def updateAssoc {α : Type} (k : ℕ) (v : α) : List (ℕ × α) → List (ℕ × α)
  | [] => [(k, v)]
  | (k1, v1) :: rest => if k1 = k then (k, v) :: rest else (k1, v1) :: updateAssoc k v rest

/-- Remove the binding at a key (Python `del`); keys of a Python dict are
unique, so dropping every binding of the key is the same operation. -/
def removeAssoc {α : Type} (k : ℕ) (l : List (ℕ × α)) : List (ℕ × α) :=
  l.filter (fun kv => kv.1 ≠ k)

/-- The `defaultdict(list)` read `active_detections[session_id]`. -/
def windowOf (st : Store) (session_id : ℕ) : List SessionDetection :=
  (st.active_detections.lookup session_id).getD []

/-- The decode confidence threshold passed at line 580 (`conf_threshold=0.5`). -/
def DETECT_CONF_THRESHOLD : ℚ := 1/2

/-- The NMS IoU threshold passed at line 581 (`iou_threshold=0.45`). -/
def DETECT_IOU_THRESHOLD : ℚ := 45/100

/-- The HTTP error responses raised by the handlers. -/
inductive ApiError
  | sessionNotFound
  | reportNotFound
  | modelNotLoaded
  | notAnImage
  | detectionFailed
deriving DecidableEq

/-- Whether an endpoint outcome is a success. -/
def isSuccess {ε α : Type} : Except ε α → Bool
  | Except.ok _ => true
  | Except.error _ => false

/-- `start_session` (lines 460–476): create an empty session and an empty
active-detections entry under a caller-supplied fresh id. -/
def start_session (st : Store) (session_id : ℕ) : Store :=
  { sessions := updateAssoc session_id
      { reports := [], detection_count := 0, unique_hazards := 0, ended := false }
      st.sessions,
    active_detections := updateAssoc session_id [] st.active_detections }

/-- `end_session` (lines 478–495): 404 when the id is not in `sessions`;
otherwise set `end_time`, delete the `active_detections` entry if present,
and return the session as the summary.  The session itself stays in
`sessions`. -/
def end_session (st : Store) (session_id : ℕ) : Except ApiError (Store × Session) :=
  match st.sessions.lookup session_id with
  | none => Except.error ApiError.sessionNotFound
  | some s =>
    Except.ok
      ({ sessions := updateAssoc session_id { s with ended := true } st.sessions,
         active_detections := removeAssoc session_id st.active_detections },
       { s with ended := true })

/-- The loop of `confirm_report`/`dismiss_report` (lines 512–515, 526–529):
set the status of the first report with the given id, `none` when no
report matches (404). -/
def setStatusFirst (report_id : ℕ) (status : ReportStatus) :
    List Report → Option (List Report)
  | [] => none
  | r :: rs =>
    if r.report_id = report_id then some ({ r with status := status } :: rs)
    else (setStatusFirst report_id status rs).map (r :: ·)

/-- Common body of `confirm_report` and `dismiss_report` (lines 505–531),
which differ only in the status written: unconditionally overwrite the
status of the first matching report, whatever it was before. -/
def updateReportStatus (status : ReportStatus) (st : Store) (session_id report_id : ℕ) :
    Except ApiError Store :=
  match st.sessions.lookup session_id with
  | none => Except.error ApiError.sessionNotFound
  | some s =>
    match setStatusFirst report_id status s.reports with
    | none => Except.error ApiError.reportNotFound
    | some rs =>
      Except.ok
        { st with sessions := updateAssoc session_id { s with reports := rs } st.sessions }

/-- `confirm_report` (lines 505–517). -/
def confirm_report (st : Store) (session_id report_id : ℕ) : Except ApiError Store :=
  updateReportStatus ReportStatus.confirmed st session_id report_id

/-- `dismiss_report` (lines 519–531). -/
def dismiss_report (st : Store) (session_id report_id : ℕ) : Except ApiError Store :=
  updateReportStatus ReportStatus.dismissed st session_id report_id

/-- The status of the first report with the given id. -/
def statusOfFirst (report_id : ℕ) : List Report → Option ReportStatus
  | [] => none
  | r :: rs => if r.report_id = report_id then some r.status else statusOfFirst report_id rs

/-- `is_duplicate_detection` (lines 373–388): scan the window in order; an
entry matches when it has the same class id, its timestamp is within
`TRACKING_TIME_THRESHOLD` of now (strictly), and the center distance is
strictly below `TRACKING_DISTANCE_THRESHOLD`; the first match returns
`(True, its report_id)`. -/
def is_duplicate_detection (now : ℚ) (new_detection : SessionDetection) :
    List SessionDetection → Bool × Option ℕ
  | [] => (false, none)
  | existing :: rest =>
    if existing.class_id = new_detection.class_id ∧
        now - existing.timestamp < TRACKING_TIME_THRESHOLD then
      if centerDistSq new_detection.bbox existing.bbox < TRACKING_DISTANCE_THRESHOLD ^ 2 then
        (true, existing.report_id)
      else is_duplicate_detection now new_detection rest
    else is_duplicate_detection now new_detection rest

/-- The window-entry match predicate of `is_duplicate_detection`, flattened. -/
def matchesDet (now : ℚ) (d e : SessionDetection) : Bool :=
  e.class_id = d.class_id ∧ now - e.timestamp < TRACKING_TIME_THRESHOLD ∧
    centerDistSq d.bbox e.bbox < TRACKING_DISTANCE_THRESHOLD ^ 2

theorem is_duplicate_eq_find (now : ℚ) (d : SessionDetection) (l : List SessionDetection) :
    is_duplicate_detection now d l =
      match l.find? (matchesDet now d) with
      | some e => (true, e.report_id)
      | none => (false, none) := by
  induction l with
  | nil => rfl
  | cons existing rest ih =>
    rw [is_duplicate_detection, List.find?]
    by_cases h1 : existing.class_id = d.class_id ∧
        now - existing.timestamp < TRACKING_TIME_THRESHOLD
    · by_cases h2 : centerDistSq d.bbox existing.bbox < TRACKING_DISTANCE_THRESHOLD ^ 2
      · rw [if_pos h1, if_pos h2,
          show matchesDet now d existing = true from decide_eq_true ⟨h1.1, h1.2, h2⟩]
      · rw [if_pos h1, if_neg h2,
          show matchesDet now d existing = false from
            decide_eq_false (fun hc => h2 hc.2.2), ih]
    · rw [if_neg h1,
        show matchesDet now d existing = false from
          decide_eq_false (fun hc => h1 ⟨hc.1, hc.2.1⟩), ih]

/-- Result of processing one raw detection inside `detect_hazards`
(lines 590–639): the updated session, the updated active window, the
annotated detection, and the reports created for it. -/
structure StepResult where
  session : Session
  window : List SessionDetection
  det : SessionDetection
  new_reports : List Report
deriving DecidableEq

/-- The detection dict built at lines 596–607 before tracking: timestamp is
the request time, tracking fields not yet set. -/
def mkSessionDetection (raw : Detection) (now : ℚ) : SessionDetection :=
  { bbox := raw.bbox, confidence := raw.confidence, class_id := raw.class_id,
    timestamp := now, is_new := false, report_id := none }

/-- One iteration of the tracking loop of `detect_hazards` (lines 590–639).
High-confidence detections are matched against the active window; a match
inherits the existing report id with `is_new=False`, a miss creates a
pending report (appended to the session), appends the detection carrying
the new report id to the window, bumps `unique_hazards` and sets
`is_new=True`.  Low-confidence detections get `is_new=False` and no report
id and leave the window untouched.  `detection_count` is bumped in every
case (line 639). -/
def processDetection (session_id : ℕ) (now : ℚ) (fresh_report_id : ℕ) (raw : Detection)
    (session : Session) (window : List SessionDetection) : StepResult :=
  if raw.confidence ≥ MIN_CONFIDENCE_FOR_REPORT then
    match is_duplicate_detection now (mkSessionDetection raw now) window with
    | (false, _) =>
      { session := { session with
          reports := session.reports ++
            [create_report (mkSessionDetection raw now) session_id fresh_report_id],
          unique_hazards := session.unique_hazards + 1,
          detection_count := session.detection_count + 1 },
        window := window ++ [{ mkSessionDetection raw now with
          is_new := true, report_id := some fresh_report_id }],
        det := { mkSessionDetection raw now with
          is_new := true, report_id := some fresh_report_id },
        new_reports := [create_report (mkSessionDetection raw now) session_id fresh_report_id] }
    | (true, existing_report_id) =>
      { session := { session with detection_count := session.detection_count + 1 },
        window := window,
        det := { mkSessionDetection raw now with
          is_new := false, report_id := existing_report_id },
        new_reports := [] }
  else
    { session := { session with detection_count := session.detection_count + 1 },
      window := window,
      det := { mkSessionDetection raw now with is_new := false, report_id := none },
      new_reports := [] }

/-- The full tracking loop over the final detections, threading the session,
the window and a fresh-id counter (modelling successive `uuid.uuid4()`
draws). -/
def processDetections (session_id : ℕ) (now : ℚ) :
    List Detection → ℕ → Session → List SessionDetection →
      Session × List SessionDetection × List SessionDetection × List Report
  | [], _, session, _window => (session, _window, [], [])
  | raw :: rest, fresh_id, session, window =>
    let step := processDetection session_id now fresh_id raw session window
    let tail := processDetections session_id now rest (fresh_id + 1) step.session step.window
    (tail.1, tail.2.1, step.det :: tail.2.2.1, step.new_reports ++ tail.2.2.2)

/-- The response payload of `detect_hazards` (lines 645–667), restricted to
the session-state fields. -/
structure DetectResponse where
  detections : List SessionDetection
  new_reports : List Report
  total_detections : ℕ
  unique_hazards : ℕ
  pending_reports : ℕ
deriving DecidableEq

/-- `detect_hazards` (lines 533–671).  The request is summarised by: whether
the content-type check passes, the decoded image dimensions (`none` when
`file.read`/`Image.open` raises), and the raw prediction rows returned by
the external inference engine (`none` when the inference call raises or
times out); either failure is caught by the handler and surfaces as a 500
(`detectionFailed`) with no state committed, because all session mutations
happen in the tracking loop after postprocessing.  On success the store is
updated with the new session record and active window. -/
def detect_hazards (model_loaded : Bool) (model_size : ℕ) (content_type_is_image : Bool)
    (decoded_image : Option (ℕ × ℕ)) (infer_output : Option (List PredRow))
    (now : ℚ) (fresh_id : ℕ) (session_id : ℕ) (st : Store) :
    Store × Except ApiError DetectResponse :=
  match st.sessions.lookup session_id with
  | none => (st, Except.error ApiError.sessionNotFound)
  | some session =>
    if ¬ model_loaded then (st, Except.error ApiError.modelNotLoaded)
    else if ¬ content_type_is_image then (st, Except.error ApiError.notAnImage)
    else
      match decoded_image with
      | none => (st, Except.error ApiError.detectionFailed)
      | some wh =>
        match infer_output with
        | none => (st, Except.error ApiError.detectionFailed)
        | some predictions =>
          let p := preprocess_image wh.1 wh.2 model_size model_size
          let raws := postprocess_predictions_letterbox predictions wh.1 wh.2
            model_size model_size p.scale (p.paste_x : ℚ) (p.paste_y : ℚ)
            DETECT_CONF_THRESHOLD DETECT_IOU_THRESHOLD
          let r := processDetections session_id now raws fresh_id session (windowOf st session_id)
          ({ sessions := updateAssoc session_id r.1 st.sessions,
             active_detections := updateAssoc session_id r.2.1 st.active_detections },
           Except.ok
            { detections := r.2.2.1,
              new_reports := r.2.2.2,
              total_detections := r.1.detection_count,
              unique_hazards := r.1.unique_hazards,
              pending_reports :=
                (r.1.reports.filter (fun rep => rep.status = ReportStatus.pending)).length })

/-- C1: per final detection in a detect request on an active session.  A
high-confidence detection (`confidence >= MIN_CONFIDENCE_FOR_REPORT`) is
matched against the active window in arrival order, the first entry with
the same class id, timestamp within `TRACKING_TIME_THRESHOLD` of now and
center distance strictly below `TRACKING_DISTANCE_THRESHOLD` winning
(`List.find?` with `matchesDet`): on a match the detection gets
`is_new=false` and that entry's report id and the window and reports are
unchanged; on a miss a new pending report is created and appended, the
detection carrying the fresh report id is appended to the window,
`unique_hazards` is incremented, and the detection gets `is_new=true`.  A
low-confidence detection always gets `is_new=false` and no report id, and
the window is neither modified nor read (the outcome is the same for every
window). -/
theorem C1_dedup_step (session_id : ℕ) (now : ℚ) (fresh_id : ℕ) (raw : Detection)
    (session : Session) (window : List SessionDetection) :
    (MIN_CONFIDENCE_FOR_REPORT ≤ raw.confidence →
      (∀ e, window.find? (matchesDet now (mkSessionDetection raw now)) = some e →
        processDetection session_id now fresh_id raw session window =
          { session := { session with detection_count := session.detection_count + 1 },
            window := window,
            det := { mkSessionDetection raw now with
              is_new := false, report_id := e.report_id },
            new_reports := [] }) ∧
      (window.find? (matchesDet now (mkSessionDetection raw now)) = none →
        processDetection session_id now fresh_id raw session window =
          { session := { session with
              reports := session.reports ++
                [create_report (mkSessionDetection raw now) session_id fresh_id],
              unique_hazards := session.unique_hazards + 1,
              detection_count := session.detection_count + 1 },
            window := window ++ [{ mkSessionDetection raw now with
              is_new := true, report_id := some fresh_id }],
            det := { mkSessionDetection raw now with
              is_new := true, report_id := some fresh_id },
            new_reports := [create_report (mkSessionDetection raw now) session_id fresh_id] } ∧
        (create_report (mkSessionDetection raw now) session_id fresh_id).status =
          ReportStatus.pending)) ∧
    (raw.confidence < MIN_CONFIDENCE_FOR_REPORT →
      processDetection session_id now fresh_id raw session window =
        { session := { session with detection_count := session.detection_count + 1 },
          window := window,
          det := { mkSessionDetection raw now with is_new := false, report_id := none },
          new_reports := [] } ∧
      ∀ window2, (processDetection session_id now fresh_id raw session window2).det =
        (processDetection session_id now fresh_id raw session window).det) := by
  constructor
  · intro hconf
    constructor
    · intro e hfind
      rw [processDetection, if_pos hconf, is_duplicate_eq_find, hfind]
    · intro hfind
      refine ⟨?_, rfl⟩
      rw [processDetection, if_pos hconf, is_duplicate_eq_find, hfind]
  · intro hconf
    have hnot : ¬ (raw.confidence ≥ MIN_CONFIDENCE_FOR_REPORT) := not_le.mpr hconf
    constructor
    · rw [processDetection, if_neg hnot]
    · intro window2
      rw [processDetection, if_neg hnot, processDetection, if_neg hnot]

/-- Witness for C1: a high-confidence detection against an empty window
creates a new pending report and is flagged new. -/
theorem C1_dedup_step_witness :
    (processDetection 7 5 42 ⟨⟨0, 0, 10, 10⟩, 9/10, 2, "pothole"⟩
      ⟨[], 0, 0, false⟩ []).det.is_new = true ∧
    (processDetection 7 5 42 ⟨⟨0, 0, 10, 10⟩, 9/10, 2, "pothole"⟩
      ⟨[], 0, 0, false⟩ []).session.unique_hazards = 1 := by
  obtain ⟨hhigh, hlow⟩ := C1_dedup_step 7 5 42 ⟨⟨0, 0, 10, 10⟩, 9/10, 2, "pothole"⟩
    ⟨[], 0, 0, false⟩ []
  obtain ⟨hmatched, hmiss⟩ := hhigh (by norm_num [MIN_CONFIDENCE_FOR_REPORT])
  obtain ⟨heq, hpend⟩ := hmiss rfl
  rw [heq]
  exact ⟨rfl, rfl⟩

/-- C9: atomicity on failure.  If the uploaded image bytes are unreadable
(`decoded_image = none`) or the external inference call errors or times out
(`infer_output = none`), `detect_hazards` fails (no success response) and
the store is returned unchanged: no report is created, no counter changes,
and the active window is untouched. -/
theorem C9_atomic_failure (model_loaded : Bool) (model_size : ℕ)
    (content_type_is_image : Bool) (decoded_image : Option (ℕ × ℕ))
    (infer_output : Option (List PredRow)) (now : ℚ) (fresh_id session_id : ℕ)
    (st : Store) (h : decoded_image = none ∨ infer_output = none) :
    (detect_hazards model_loaded model_size content_type_is_image decoded_image
      infer_output now fresh_id session_id st).1 = st ∧
    isSuccess (detect_hazards model_loaded model_size content_type_is_image decoded_image
      infer_output now fresh_id session_id st).2 = false := by
  rcases h with h | h
  · subst h
    rcases hlook : st.sessions.lookup session_id with _ | session <;>
      simp only [detect_hazards, hlook]
    · simp [isSuccess]
    · split_ifs <;> simp [isSuccess]
  · subst h
    rcases hlook : st.sessions.lookup session_id with _ | session <;>
      simp only [detect_hazards, hlook]
    · simp [isSuccess]
    · split_ifs <;> (rcases decoded_image with _ | wh <;> simp [isSuccess])

/-- Witness for C9: a failed inference call on a one-session store leaves it
unchanged. -/
theorem C9_atomic_failure_witness :
    (detect_hazards true 640 true (some (640, 640)) none 0 0 5
      ⟨[(5, ⟨[], 0, 0, false⟩)], [(5, [])]⟩).1 =
      ⟨[(5, ⟨[], 0, 0, false⟩)], [(5, [])]⟩ := by
  exact (C9_atomic_failure true 640 true (some (640, 640)) none 0 0 5
    ⟨[(5, ⟨[], 0, 0, false⟩)], [(5, [])]⟩ (Or.inr rfl)).1

theorem setStatusFirst_isSome (report_id : ℕ) (a b : ReportStatus) (rs : List Report) :
    (setStatusFirst report_id a rs).isSome = (setStatusFirst report_id b rs).isSome := by
  induction rs with
  | nil => rfl
  | cons r rest ih =>
    rw [setStatusFirst, setStatusFirst]
    split_ifs with hr
    · rfl
    · rcases ha : setStatusFirst report_id a rest with _ | x <;>
        rcases hb : setStatusFirst report_id b rest with _ | y <;>
          rw [ha, hb] at ih <;> simp [ha, hb] at ih ⊢

theorem setStatusFirst_last_wins (report_id : ℕ) (a b : ReportStatus)
    (rs rs1 : List Report) (h : setStatusFirst report_id a rs = some rs1) :
    setStatusFirst report_id b rs1 = setStatusFirst report_id b rs := by
  induction rs generalizing rs1 with
  | nil => cases h
  | cons r rest ih =>
    rw [setStatusFirst] at h
    split_ifs at h with hr
    · rw [Option.some_inj] at h
      subst h
      rw [setStatusFirst, if_pos hr, setStatusFirst, if_pos hr]
    · obtain ⟨rest1, hrest1, hcons⟩ := Option.map_eq_some'.mp h
      subst hcons
      rw [setStatusFirst, if_neg hr, setStatusFirst, if_neg hr, ih rest1 hrest1]

theorem setStatusFirst_statusOfFirst (report_id : ℕ) (b : ReportStatus)
    (rs rs1 : List Report) (h : setStatusFirst report_id b rs = some rs1) :
    statusOfFirst report_id rs1 = some b := by
  induction rs generalizing rs1 with
  | nil => cases h
  | cons r rest ih =>
    rw [setStatusFirst] at h
    split_ifs at h with hr
    · rw [Option.some_inj] at h
      subst h
      rw [statusOfFirst, if_pos hr]
    · obtain ⟨rest1, hrest1, hcons⟩ := Option.map_eq_some'.mp h
      subst hcons
      rw [statusOfFirst, if_neg hr, ih rest1 hrest1]

theorem lookup_updateAssoc_self {α : Type} (k : ℕ) (v : α) (l : List (ℕ × α)) :
    (updateAssoc k v l).lookup k = some v := by
  induction l with
  | nil => simp [updateAssoc, List.lookup]
  | cons kv rest ih =>
    obtain ⟨k1, v1⟩ := kv
    rw [updateAssoc]
    split_ifs with hk
    · simp [List.lookup]
    · have hbeq : (k == k1) = false := beq_eq_false_iff_ne.mpr (fun he => hk he.symm)
      simp only [List.lookup, hbeq]
      exact ih

theorem updateAssoc_updateAssoc {α : Type} (k : ℕ) (v1 v2 : α) (l : List (ℕ × α)) :
    updateAssoc k v2 (updateAssoc k v1 l) = updateAssoc k v2 l := by
  induction l with
  | nil => simp [updateAssoc]
  | cons kv rest ih =>
    obtain ⟨k1, w1⟩ := kv
    rw [updateAssoc]
    split_ifs with hk
    · rw [updateAssoc, if_pos rfl, updateAssoc, if_pos hk]
    · rw [updateAssoc, if_neg hk, updateAssoc, if_neg hk, ih]

theorem lookup_removeAssoc_self {α : Type} (k : ℕ) (l : List (ℕ × α)) :
    (removeAssoc k l).lookup k = none := by
  induction l with
  | nil => rfl
  | cons kv rest ih =>
    obtain ⟨k1, v1⟩ := kv
    rw [removeAssoc, List.filter]
    rcases hk : decide (k1 ≠ k) with _ | _
    · simpa [removeAssoc] using ih
    · have hne : k1 ≠ k := of_decide_eq_true hk
      have hbeq : (k == k1) = false := beq_eq_false_iff_ne.mpr (fun he => hne he.symm)
      simp only [List.lookup, hbeq]
      simpa [removeAssoc] using ih

theorem updateReportStatus_overwrite (a b : ReportStatus) (st : Store)
    (session_id report_id : ℕ) (st1 : Store)
    (h : updateReportStatus a st session_id report_id = Except.ok st1) :
    updateReportStatus b st1 session_id report_id =
      updateReportStatus b st session_id report_id ∧
    isSuccess (updateReportStatus b st session_id report_id) = true ∧
    ∀ st2, updateReportStatus b st1 session_id report_id = Except.ok st2 →
      ∃ s2, st2.sessions.lookup session_id = some s2 ∧
        statusOfFirst report_id s2.reports = some b := by
  rcases hlook : st.sessions.lookup session_id with _ | s
  · rw [updateReportStatus, hlook] at h
    cases h
  · simp only [updateReportStatus, hlook] at h
    rcases hset : setStatusFirst report_id a s.reports with _ | rs
    · rw [hset] at h
      exact Except.noConfusion h
    · rw [hset, Except.ok.injEq] at h
      subst h
      have hsome : (setStatusFirst report_id b s.reports).isSome = true := by
        rw [← setStatusFirst_isSome report_id a b, hset]
        rfl
      obtain ⟨rs2, hset2⟩ := Option.isSome_iff_exists.mp hsome
      have hlast : setStatusFirst report_id b rs = setStatusFirst report_id b s.reports :=
        setStatusFirst_last_wins report_id a b s.reports rs hset
      have hL : updateReportStatus b
          { st with sessions := updateAssoc session_id { s with reports := rs } st.sessions }
          session_id report_id =
          Except.ok { st with
            sessions := updateAssoc session_id { s with reports := rs2 } st.sessions } := by
        simp only [updateReportStatus, lookup_updateAssoc_self, hlast, hset2,
          updateAssoc_updateAssoc]
      have hR : updateReportStatus b st session_id report_id =
          Except.ok { st with
            sessions := updateAssoc session_id { s with reports := rs2 } st.sessions } := by
        simp only [updateReportStatus, hlook, hset2]
      refine ⟨by rw [hL, hR], by rw [hR]; rfl, ?_⟩
      intro st2 hst2
      rw [hL, Except.ok.injEq] at hst2
      subst hst2
      exact ⟨{ s with reports := rs2 },
        lookup_updateAssoc_self session_id _ st.sessions,
        setStatusFirst_statusOfFirst report_id b s.reports rs2 hset2⟩

/-- Session detection used in the C2 counterexample. -/
def c2Det : SessionDetection := ⟨⟨0, 0, 1, 1⟩, 1, 0, 0, false, none⟩

/-- Store with one session (id 7) holding one pending report (id 3). -/
def c2Store : Store := ⟨[(7, ⟨[⟨3, 7, c2Det, ReportStatus.pending⟩], 0, 0, false⟩)], []⟩

def c2Mid : Store := ⟨[(7, ⟨[⟨3, 7, c2Det, ReportStatus.dismissed⟩], 0, 0, false⟩)], []⟩

def c2Final : Store := ⟨[(7, ⟨[⟨3, 7, c2Det, ReportStatus.confirmed⟩], 0, 0, false⟩)], []⟩

/-- C2 counterexample: the claim says a confirm after a dismiss on the same
report fails or leaves the status unchanged (first transition wins), but
`confirm_report` overwrites unconditionally: dismissing report 3 and then
confirming it succeeds and leaves the status `confirmed`, not the first-set
`dismissed` — there is a transition out of `dismissed`. -/
theorem C2_counterexample :
    dismiss_report c2Store 7 3 = Except.ok c2Mid ∧
    confirm_report c2Mid 7 3 = Except.ok c2Final ∧
    statusOfFirst 3 (⟨[⟨3, 7, c2Det, ReportStatus.dismissed⟩], 0, 0, false⟩ : Session).reports =
      some ReportStatus.dismissed ∧
    statusOfFirst 3 (⟨[⟨3, 7, c2Det, ReportStatus.confirmed⟩], 0, 0, false⟩ : Session).reports =
      some ReportStatus.confirmed ∧
    ReportStatus.confirmed ≠ ReportStatus.dismissed := by
  refine ⟨rfl, rfl, rfl, rfl, ?_⟩
  intro hcontra
  cases hcontra

/-- C2 (amended): once a report's status has left `pending` via confirm or
dismiss, a subsequent confirm or dismiss on the same report succeeds and
overwrites the status: the final status equals the last transition applied
(last transition wins), and transitions out of `confirmed`/`dismissed` are
possible.  Sequencing dismiss-then-confirm is the same store transformer
as confirm alone (and symmetrically), and the final status of the report
is the status of the last operation. -/
theorem C2_report_overwrite (st : Store) (session_id report_id : ℕ) (st1 : Store) :
    (dismiss_report st session_id report_id = Except.ok st1 →
      confirm_report st1 session_id report_id = confirm_report st session_id report_id ∧
      isSuccess (confirm_report st session_id report_id) = true ∧
      ∀ st2, confirm_report st1 session_id report_id = Except.ok st2 →
        ∃ s2, st2.sessions.lookup session_id = some s2 ∧
          statusOfFirst report_id s2.reports = some ReportStatus.confirmed) ∧
    (confirm_report st session_id report_id = Except.ok st1 →
      dismiss_report st1 session_id report_id = dismiss_report st session_id report_id ∧
      isSuccess (dismiss_report st session_id report_id) = true ∧
      ∀ st2, dismiss_report st1 session_id report_id = Except.ok st2 →
        ∃ s2, st2.sessions.lookup session_id = some s2 ∧
          statusOfFirst report_id s2.reports = some ReportStatus.dismissed) :=
  ⟨fun h => updateReportStatus_overwrite ReportStatus.dismissed ReportStatus.confirmed
      st session_id report_id st1 h,
   fun h => updateReportStatus_overwrite ReportStatus.confirmed ReportStatus.dismissed
      st session_id report_id st1 h⟩

/-- Witness for C2 (amended) on the concrete two-step run of the
counterexample stores. -/
theorem C2_report_overwrite_witness :
    confirm_report c2Mid 7 3 = confirm_report c2Store 7 3 ∧
    isSuccess (confirm_report c2Store 7 3) = true := by
  obtain ⟨h1, h2⟩ := C2_report_overwrite c2Store 7 3 c2Mid
  obtain ⟨ha, hb, hc⟩ := h1 rfl
  exact ⟨ha, hb⟩

/-- Prediction rows for C10: two boxes of the same class whose centers are
40 px apart (within tracking distance) but whose IoU is 0 (they survive
NMS together). -/
def c10RowA : PredRow := ⟨100, 100, 40, 40, 9/10, [1]⟩

def c10RowB : PredRow := ⟨140, 100, 40, 40, 9/10, [1]⟩

def c10DetA : Detection := ⟨⟨80, 80, 120, 120⟩, 9/10, 0, "crack"⟩

def c10DetB : Detection := ⟨⟨120, 80, 160, 120⟩, 9/10, 0, "crack"⟩

theorem c10_preprocess : preprocess_image 640 640 640 640 = ⟨1, 640, 640, 0, 0⟩ := by
  simp only [preprocess_image]
  norm_num [pyInt, min_self]

theorem c10_decodeA : decodeRow 640 640 1 0 0 DETECT_CONF_THRESHOLD c10RowA = some c10DetA := by
  norm_num [decodeRow, decodedBox, clamp, argmax, listMax, className, class_names,
    DETECT_CONF_THRESHOLD, c10RowA, c10DetA]

theorem c10_decodeB : decodeRow 640 640 1 0 0 DETECT_CONF_THRESHOLD c10RowB = some c10DetB := by
  norm_num [decodeRow, decodedBox, clamp, argmax, listMax, className, class_names,
    DETECT_CONF_THRESHOLD, c10RowB, c10DetB]

theorem c10_iou : calculate_iou c10DetA.bbox c10DetB.bbox = 0 := by
  norm_num [calculate_iou, c10DetA, c10DetB]

theorem c10_nms : apply_nms [c10DetA, c10DetB] DETECT_IOU_THRESHOLD = [c10DetA, c10DetB] := by
  have hpw : List.Pairwise (fun a b => detLe a b = true) [c10DetA, c10DetB] := by
    refine List.Pairwise.cons ?_ (List.pairwise_singleton _ _)
    intro b hb
    rw [List.mem_singleton] at hb
    subst hb
    norm_num [detLe, c10DetA, c10DetB]
  rw [apply_nms, sortByConfDesc, List.mergeSort_of_sorted hpw, nmsLoop]
  have hfil : List.filter
      (fun det => decide (calculate_iou c10DetA.bbox det.bbox < DETECT_IOU_THRESHOLD))
      [c10DetB] = [c10DetB] := by
    simp only [List.filter_cons, List.filter_nil, c10_iou]
    norm_num [DETECT_IOU_THRESHOLD]
  rw [hfil, nmsLoop, List.filter_nil, nmsLoop]

theorem c10_raws : postprocess_predictions_letterbox [c10RowA, c10RowB] 640 640 640 640
    1 0 0 DETECT_CONF_THRESHOLD DETECT_IOU_THRESHOLD = [c10DetA, c10DetB] := by
  rw [postprocess_predictions_letterbox]
  rw [show List.filterMap (decodeRow 640 640 1 0 0 DETECT_CONF_THRESHOLD) [c10RowA, c10RowB] =
      [c10DetA, c10DetB] from by
    simp only [List.filterMap_cons, List.filterMap_nil, c10_decodeA, c10_decodeB]]
  exact c10_nms

theorem c10_raws_single : postprocess_predictions_letterbox [c10RowA] 640 640 640 640
    1 0 0 DETECT_CONF_THRESHOLD DETECT_IOU_THRESHOLD = [c10DetA] := by
  rw [postprocess_predictions_letterbox]
  rw [show List.filterMap (decodeRow 640 640 1 0 0 DETECT_CONF_THRESHOLD) [c10RowA] = [c10DetA] from by
    simp only [List.filterMap_cons, List.filterMap_nil, c10_decodeA]]
  rw [apply_nms, sortByConfDesc, List.mergeSort_of_sorted (List.pairwise_singleton _ _),
    nmsLoop, List.filter_nil, nmsLoop]

/-- The detection of `c10RowA` as tracked in the window (report id 0). -/
def c10TrackedA : SessionDetection := ⟨⟨80, 80, 120, 120⟩, 9/10, 0, 100, true, some 0⟩

/-- The detection of `c10RowB` after deduplication: a repeat of report 0. -/
def c10DetB2 : SessionDetection := ⟨⟨120, 80, 160, 120⟩, 9/10, 0, 100, false, some 0⟩

def c10Rep : Report :=
  ⟨0, 5, ⟨⟨80, 80, 120, 120⟩, 9/10, 0, 100, false, none⟩, ReportStatus.pending⟩

def c10Ended : Session := ⟨[], 0, 0, true⟩

/-- Store holding one active session (id 5) with a stale window entry. -/
def c10Store0 : Store :=
  ⟨[(5, ⟨[], 0, 0, false⟩)], [(5, [⟨⟨0, 0, 10, 10⟩, 1, 0, 0, true, some 99⟩])]⟩

/-- The store after ending session 5: the session is retained (marked
ended), its window entry is deleted. -/
def c10Store1 : Store := ⟨[(5, c10Ended)], []⟩

theorem c10_end : end_session c10Store0 5 = Except.ok (c10Store1, c10Ended) := rfl

theorem c10_step1 : processDetection 5 100 0 c10DetA c10Ended [] =
    ⟨⟨[c10Rep], 1, 1, true⟩, [c10TrackedA], c10TrackedA, [c10Rep]⟩ := by
  norm_num [processDetection, MIN_CONFIDENCE_FOR_REPORT, is_duplicate_detection,
    mkSessionDetection, create_report, c10DetA, c10Ended, c10Rep, c10TrackedA]

theorem c10_step2 : processDetection 5 100 1 c10DetB ⟨[c10Rep], 1, 1, true⟩ [c10TrackedA] =
    ⟨⟨[c10Rep], 2, 1, true⟩, [c10TrackedA], c10DetB2, []⟩ := by
  norm_num [processDetection, MIN_CONFIDENCE_FOR_REPORT, is_duplicate_detection,
    mkSessionDetection, centerDistSq, TRACKING_TIME_THRESHOLD, TRACKING_DISTANCE_THRESHOLD,
    c10DetB, c10TrackedA, c10DetB2]

theorem c10_proc : processDetections 5 100 [c10DetA, c10DetB] 0 c10Ended [] =
    (⟨[c10Rep], 2, 1, true⟩, [c10TrackedA], [c10TrackedA, c10DetB2], [c10Rep]) := by
  norm_num [processDetections, c10_step1, c10_step2]

theorem c10_detect : detect_hazards true 640 true (some (640, 640))
    (some [c10RowA, c10RowB]) 100 0 5 c10Store1 =
    (⟨[(5, ⟨[c10Rep], 2, 1, true⟩)], [(5, [c10TrackedA])]⟩,
     Except.ok ⟨[c10TrackedA, c10DetB2], [c10Rep], 2, 1, 1⟩) := by
  norm_num [detect_hazards, c10Store1, List.lookup, c10_preprocess, c10_raws, c10_proc,
    windowOf, updateAssoc, c10Rep]

/-- C10 counterexample: the claim says every high-confidence detection in a
request addressed to an ended session is treated as novel.  Ending session
5 succeeds and leaves its id resolvable with an empty window, and a
subsequent detect also succeeds — but of the two high-confidence detections
in that request, the second matches the first (same class, centers 40 px
apart, same timestamp) and is flagged `is_new=false`, inheriting its report
id instead of creating a new report. -/
theorem C10_counterexample :
    end_session c10Store0 5 = Except.ok (c10Store1, c10Ended) ∧
    windowOf c10Store1 5 = [] ∧
    ((detect_hazards true 640 true (some (640, 640)) (some [c10RowA, c10RowB])
        100 0 5 c10Store1).2.map (fun r => r.detections.map (fun d => d.is_new))) =
      Except.ok [true, false] ∧
    ((detect_hazards true 640 true (some (640, 640)) (some [c10RowA, c10RowB])
        100 0 5 c10Store1).2.map (fun r => r.detections.map
          (fun d => decide (MIN_CONFIDENCE_FOR_REPORT ≤ d.confidence)))) =
      Except.ok [true, true] := by
  refine ⟨c10_end, rfl, ?_, ?_⟩
  · rw [c10_detect]
    simp [c10TrackedA, c10DetB2, Except.map]
  · rw [c10_detect]
    norm_num [c10TrackedA, c10DetB2, Except.map, MIN_CONFIDENCE_FOR_REPORT]

/-- C10 (amended): after `end(session_id)` succeeds, the session id remains
resolvable — a second end on the same id succeeds rather than failing with
`SessionNotFound`, and a subsequent detect request addressed to the ended
session also succeeds, observing an empty active window (the one discarded
at end is silently recreated empty).  A high-confidence detection that
matches no earlier detection of the same request is treated as novel — in
particular, when the request yields a single high-confidence detection, it
is flagged new, a pending report is created, and the ended session's
`unique_hazards` and `detection_count` are incremented. -/
theorem C10_ended_session (st : Store) (session_id : ℕ) (st1 : Store) (s1 : Session)
    (model_size : ℕ) (wh : ℕ × ℕ) (preds : List PredRow) (now : ℚ) (fresh_id : ℕ)
    (raw : Detection)
    (hend : end_session st session_id = Except.ok (st1, s1))
    (hraws : postprocess_predictions_letterbox preds wh.1 wh.2 model_size model_size
      (preprocess_image wh.1 wh.2 model_size model_size).scale
      ((preprocess_image wh.1 wh.2 model_size model_size).paste_x : ℚ)
      ((preprocess_image wh.1 wh.2 model_size model_size).paste_y : ℚ)
      DETECT_CONF_THRESHOLD DETECT_IOU_THRESHOLD = [raw])
    (hconf : MIN_CONFIDENCE_FOR_REPORT ≤ raw.confidence) :
    isSuccess (end_session st1 session_id) = true ∧
    windowOf st1 session_id = [] ∧
    ((detect_hazards true model_size true (some wh) (some preds) now fresh_id session_id
        st1).2.map (fun r => r.detections.map (fun d => d.is_new))) = Except.ok [true] ∧
    ((detect_hazards true model_size true (some wh) (some preds) now fresh_id session_id
        st1).2.map (fun r => r.unique_hazards)) = Except.ok (s1.unique_hazards + 1) ∧
    ((detect_hazards true model_size true (some wh) (some preds) now fresh_id session_id
        st1).2.map (fun r => r.total_detections)) = Except.ok (s1.detection_count + 1) ∧
    ((detect_hazards true model_size true (some wh) (some preds) now fresh_id session_id
        st1).2.map (fun r => r.new_reports.map (fun rep => rep.status))) =
      Except.ok [ReportStatus.pending] := by
  rcases hlook : st.sessions.lookup session_id with _ | s
  · rw [end_session, hlook] at hend
    exact Except.noConfusion hend
  · simp only [end_session, hlook] at hend
    rw [Except.ok.injEq, Prod.mk.injEq] at hend
    obtain ⟨hst1, hs1⟩ := hend
    subst hst1
    subst hs1
    have hlook1 : List.lookup session_id (updateAssoc session_id { s with ended := true }
        st.sessions) = some { s with ended := true } :=
      lookup_updateAssoc_self session_id _ st.sessions
    have hwin1 : windowOf ⟨updateAssoc session_id { s with ended := true } st.sessions,
        removeAssoc session_id st.active_detections⟩ session_id = [] := by
      simp [windowOf, lookup_removeAssoc_self]
    have hstep : processDetection session_id now fresh_id raw { s with ended := true } [] =
        ⟨⟨s.reports ++ [create_report (mkSessionDetection raw now) session_id fresh_id],
            s.detection_count + 1, s.unique_hazards + 1, true⟩,
          [{ mkSessionDetection raw now with is_new := true, report_id := some fresh_id }],
          { mkSessionDetection raw now with is_new := true, report_id := some fresh_id },
          [create_report (mkSessionDetection raw now) session_id fresh_id]⟩ := by
      rw [processDetection, if_pos hconf]
      rfl
    have hproc : processDetections session_id now [raw] fresh_id
        { s with ended := true } [] =
        (⟨s.reports ++ [create_report (mkSessionDetection raw now) session_id fresh_id],
            s.detection_count + 1, s.unique_hazards + 1, true⟩,
          [{ mkSessionDetection raw now with is_new := true, report_id := some fresh_id }],
          [{ mkSessionDetection raw now with is_new := true, report_id := some fresh_id }],
          [create_report (mkSessionDetection raw now) session_id fresh_id]) := by
      simp only [processDetections, hstep, List.append_nil]
    refine ⟨?_, hwin1, ?_, ?_, ?_, ?_⟩
    · simp [end_session, hlook1, isSuccess]
    · simp [detect_hazards, hlook1, hraws, hwin1, hproc, Except.map, mkSessionDetection]
    · simp [detect_hazards, hlook1, hraws, hwin1, hproc, Except.map]
    · simp [detect_hazards, hlook1, hraws, hwin1, hproc, Except.map]
    · simp [detect_hazards, hlook1, hraws, hwin1, hproc, Except.map, create_report]

/-- Witness for C10 (amended): ending session 5 and then submitting a frame
with a single high-confidence detection. -/
theorem C10_ended_session_witness :
    isSuccess (end_session c10Store1 5) = true ∧
    ((detect_hazards true 640 true (some (640, 640)) (some [c10RowA]) 100 0 5
        c10Store1).2.map (fun r => r.detections.map (fun d => d.is_new))) =
      Except.ok [true] := by
  obtain ⟨h1, h2, h3, h4, h5, h6⟩ := C10_ended_session c10Store0 5 c10Store1 c10Ended
    640 (640, 640) [c10RowA] 100 0 c10DetA c10_end
    (by norm_num [c10_preprocess, c10_raws_single])
    (by norm_num [MIN_CONFIDENCE_FOR_REPORT, c10DetA])
  exact ⟨h1, h3⟩

end HazardDetection

